import Mathlib

/-
Shallow embedding of `src/renderer/shared/providers/validation-context.js`
(idena-desktop): the validation-ceremony reducer, the flip binary-record
decoder, answer preparation, and the deadline submission trigger.

Modelling conventions:
- JS numbers that are always integers are `Int` (or `Nat` for byte values);
  machine floats never carry in the modelled paths.
- A JS value that may be `undefined`/`null`/absent is an `Option`; `none`
  covers both absence and `null` (no claim distinguishes them).
- A JS exception is `Except.error` with the thrown message; a JS function
  whose modelled paths can throw returns `Except String _`.
-/

namespace IdenaValidation

/-- JS `Array.prototype.slice(start, stop)`: negative indices count from the
end, both bounds are clamped to `[0, length]`. -/
def jsSlice (l : List α) (start stop : Int) : List α :=
  let len : Int := l.length
  let s : Int := if start < 0 then max (len + start) 0 else min start len
  let e : Int := if stop < 0 then max (len + stop) 0 else min stop len
  (l.take e.toNat).drop s.toNat

/-- JS indexing `l[i]`: `undefined` (here `none`) when out of range or
negative. -/
def jsGet (l : List α) (i : Int) : Option α :=
  if 0 ≤ i then l[i.toNat]? else none

/-- JS `String.prototype.substring(n)`: drop the first `n` characters
(clamped). -/
def jsSubstring (s : String) (n : Nat) : String :=
  ⟨s.data.drop n⟩

/-- Value of one hex digit, case-insensitive, as JS `parseInt(_, 16)` accepts
per character; `none` for a non-hex character. -/
def hexDigit (c : Char) : Option Nat :=
  let n := c.toNat
  if 48 ≤ n ∧ n ≤ 57 then some (n - 48)
  else if 97 ≤ n ∧ n ≤ 102 then some (n - 87)
  else if 65 ≤ n ∧ n ≤ 70 then some (n - 55)
  else none

/-- JS `parseInt(s, 16)` on a 1- or 2-character chunk: parses the longest
valid prefix; `none` models `NaN` (no leading hex digit). -/
def parseIntHex : List Char → Option Nat
  | [] => none
  | c :: rest =>
    match hexDigit c with
    | none => none
    | some d =>
      match rest with
      | [] => some d
      | c2 :: _ =>
        match hexDigit c2 with
        | none => some d
        | some d2 => some (16 * d + d2)

/-- The chunking done by `hexString.match(/.{1,2}/g)`: pairs of characters,
with a final singleton when the length is odd. -/
def chunk2 : List Char → List (List Char)
  | [] => []
  | [a] => [[a]]
  | a :: b :: rest => [a, b] :: chunk2 rest

/-- `fromHexString` from the source: `match(/.{1,2}/g)` is `null` on the
empty string (so `.map` throws, modelled as an error); each chunk goes
through `parseInt(_, 16)` and then into a `Uint8Array`, which coerces `NaN`
to `0`. -/
def fromHexString (s : String) : Except String (List Nat) :=
  if s.data.isEmpty then .error "TypeError: cannot read map of null"
  else .ok ((chunk2 s.data).map fun p => (parseIntHex p).getD 0)

/-- Decoded RLP value: a byte string (JS `Buffer`) or a list of values. -/
inductive Rlp where
  | bytes : List Nat → Rlp
  | list : List Rlp → Rlp

/-- Intermediate result of the recursive RLP decoder: a single item with its
remainder, or a decoded item sequence. -/
inductive RlpOut where
  | item : Rlp → List Nat → RlpOut
  | items : List Rlp → RlpOut

/-- Big-endian value of a length field, as `parseInt(buf.toString('hex'), 16)`
computes it for the byte slices that arise here. -/
def beVal (l : List Nat) : Nat :=
  l.foldl (fun a x => a * 256 + x) 0

/-- The `_decode` recursion of the npm `rlp` v2 package (the `decode` import
of the source), fuel-indexed so the recursion is structural. Mode `false`
decodes one item and returns `.item value remainder`; mode `true` is the
package's `while (innerRemainder.length)` loop and returns `.items`.
Errors carry the package's thrown messages. A length field whose byte slice
is empty makes `parseInt` return `NaN` in JS, which ends in a thrown
remainder assertion (top level) or a stuck loop (nested); both are modelled
as an error, and no claim reaches them. -/
def rlpRun : Nat → Bool → List Nat → Except String RlpOut
  | 0, _, _ => .error "rlp: out of fuel"
  | Nat.succ fuel, false, input =>
    match input with
    | [] => .error "rlp: empty input"
    | b :: rest =>
      if b ≤ 0x7f then
        .ok (.item (.bytes [b]) rest)
      else if b ≤ 0xb7 then
        -- short string; `length` counts the prefix byte, as in the package
        let length := b - 0x7f
        let data := if b = 0x80 then [] else jsSlice input 1 length
        -- `data[0] < 0x80` is false in JS when `data[0]` is `undefined`
        let headSmall : Bool := match data.head? with
          | some d0 => decide (d0 < 0x80)
          | none => false
        if length = 2 ∧ headSmall = true then
          .error "invalid rlp encoding: byte must be less 0x80"
        else .ok (.item (.bytes data) (input.drop length))
      else if b ≤ 0xbf then
        let llength := b - 0xb6
        match jsSlice input 1 llength with
        | [] => .error "rlp: NaN length"
        | 0 :: _ => .error "invalid RLP: extra zeros"
        | lb@(_ :: _) =>
          let length := beVal lb
          let data := jsSlice input llength (length + llength)
          if data.length < length then .error "invalid RLP"
          else .ok (.item (.bytes data) (input.drop (length + llength)))
      else if b ≤ 0xf7 then
        let length := b - 0xbf
        let inner := jsSlice input 1 length
        match rlpRun fuel true inner with
        | .error e => .error e
        | .ok (.items vs) => .ok (.item (.list vs) (input.drop length))
        | .ok (.item _ _) => .error "rlp: unreachable"
      else
        let llength := b - 0xf6
        match jsSlice input 1 llength with
        | [] => .error "rlp: NaN length"
        | 0 :: _ => .error "invalid RLP: extra zeros"
        | lb@(_ :: _) =>
          let length := beVal lb
          let totalLength := llength + length
          if totalLength > input.length then
            .error "invalid rlp: total length is larger than the data"
          else
            let inner := jsSlice input llength totalLength
            if inner.length = 0 then .error "invalid rlp, List has a invalid length"
            else
              match rlpRun fuel true inner with
              | .error e => .error e
              | .ok (.items vs) => .ok (.item (.list vs) (input.drop totalLength))
              | .ok (.item _ _) => .error "rlp: unreachable"
  | Nat.succ fuel, true, input =>
    match input with
    | [] => .ok (.items [])
    | _ :: _ =>
      match rlpRun fuel false input with
      | .error e => .error e
      | .ok (.item v rem) =>
        match rlpRun fuel true rem with
        | .error e => .error e
        | .ok (.items vs) => .ok (.items (v :: vs))
        | .ok (.item _ _) => .error "rlp: unreachable"
      | .ok (.items _) => .error "rlp: unreachable"

/-- Top-level `decode` of the npm `rlp` v2 package: empty input yields an
empty buffer; otherwise decode one item and reject a nonzero remainder.
The fuel `2 * length + 4` bounds the recursion depth, which consumes at
least one byte every two calls. -/
def rlpDecode (bs : List Nat) : Except String Rlp :=
  if bs.isEmpty then .ok (.bytes [])
  else
    match rlpRun (2 * bs.length + 4) false bs with
    | .error e => .error e
    | .ok (.item v rem) =>
      if rem.isEmpty then .ok v else .error "invalid remainder"
    | .ok (.items _) => .error "rlp: unreachable"

/-- A JS value as it appears inside the computed `orders`: a number, or (off
the expected format) the object `x[0]` itself when an order element is a
nested list. -/
inductive OrderVal where
  | num : Nat → OrderVal
  | obj : Rlp → OrderVal

/-- The callback `x => x[0] || 0` applied to one order element `x`.
For a byte string the result is its first byte with missing-or-zero giving
`0` (`0 || 0` is `0`); for an array, `x[0]` is `undefined` (then `0`) or the
first element itself, a truthy object. -/
def ordEntry : Rlp → OrderVal
  | .bytes bs => .num (bs.headD 0)
  | .list [] => .num 0
  | .list (y :: _) => .obj y

/-- `order => order.map(x => x[0] || 0)` on one element of `decodedFlip[1]`:
mapping over an array applies `ordEntry`; mapping over a `Buffer` hands each
byte (a number) to the callback, and `number[0]` is `undefined`, so every
entry is `0`. -/
def decodeOrder : Rlp → List OrderVal
  | .list xs => xs.map ordEntry
  | .bytes bs => bs.map fun _ => .num 0

/-- The two lines of `decodeFlips` that read the decoded record:
`decodedFlip[1].map(...)` throws when `decodedFlip` is not an array of at
least two elements (indexing gives `undefined` or a number, which has no
`.map`), and when `decodedFlip[1]` is a nonempty `Buffer` (its elements are
numbers, and `order.map` throws); an empty `Buffer` maps to an empty result
without calling the callback. Returns `(decodedFlip[0], orders)`. -/
def decodeFlipPair : Rlp → Except String (Rlp × List (List OrderVal))
  | .bytes _ => .error "TypeError: decodedFlip[1].map is not a function"
  | .list [] => .error "TypeError: decodedFlip[1].map is not a function"
  | .list [_] => .error "TypeError: decodedFlip[1].map is not a function"
  | .list (f0 :: f1 :: _) =>
    match f1 with
    | .bytes [] => .ok (f0, [])
    | .bytes (_ :: _) => .error "TypeError: order.map is not a function"
    | .list os => .ok (f0, os.map decodeOrder)

/-- One entry of the requested hash list: `{hash, ready}`. -/
structure HashEntry where
  hash : String
  ready : Bool
deriving DecidableEq, Repr

/-- One entry of the fetched content list: `{hash, hex}`. -/
structure HexEntry where
  hash : String
  hex : String
deriving DecidableEq, Repr

/-- One flip as built by `decodeFlips` or by the reducer's ANSWER case.
`none` models a JS field that is `null` or absent. -/
structure Flip where
  hash : Option String
  ready : Option Bool
  pics : Option Rlp
  orders : Option (List (List OrderVal))
  answer : Option Int

/-- The body of the `hashes.map` callback in `decodeFlips` for one
`{hash, ready}` entry: find the first content entry with the same hash;
if found, hex-parse and RLP-decode it and read out `pics`/`orders`; if not
found, emit the placeholder flip. -/
def decodeFlip (he : HashEntry) (hexes : List HexEntry) : Except String Flip :=
  match hexes.find? (fun x => x.hash == he.hash) with
  | none =>
    .ok {hash := some he.hash, ready := some he.ready, pics := none, orders := none, answer := none}
  | some hx =>
    match fromHexString (jsSubstring hx.hex 2) with
    | .error e => .error e
    | .ok bytes =>
      match rlpDecode bytes with
      | .error e => .error e
      | .ok d =>
        match decodeFlipPair d with
        | .error e => .error e
        | .ok (pics, orders) =>
          .ok {hash := some he.hash, ready := some he.ready, pics := some pics,
               orders := some orders, answer := none}

/-- `decodeFlips(hashes, hexes)`: `hashes.map` with a callback that can
throw; a thrown decode aborts the whole `map`, so the first error is the
result and no flip list is produced. -/
def decodeFlips : List HashEntry → List HexEntry → Except String (List Flip)
  | [], _ => .ok []
  | he :: rest, hexes =>
    match decodeFlip he hexes with
    | .error e => .error e
    | .ok f =>
      match decodeFlips rest hexes with
      | .error e => .error e
      | .ok fs => .ok (f :: fs)

/-- `AnswerType.None` from the source AnswerType table (a real answer). -/
def AnswerType.None : Int := 0

/-- `AnswerType.Left` from the source AnswerType table. -/
def AnswerType.Left : Int := 1

/-- `AnswerType.Right` from the source AnswerType table. -/
def AnswerType.Right : Int := 2

/-- `AnswerType.Inappropriate` from the source AnswerType table. -/
def AnswerType.Inappropriate : Int := 3

/-- `hasAnswer(answer) = Number.isFinite(answer)`: `none` models the
non-finite/absent cases (`undefined`, `null`, `NaN`, infinities), `some`
a finite JS number. -/
def hasAnswer (answer : Option Int) : Bool :=
  answer.isSome

/-- One `{answer, easy}` record of a submission payload. -/
structure PayloadAnswer where
  answer : Int
  easy : Bool
deriving DecidableEq, Repr

/-- `prepareAnswers(flips)`: `hasAnswer(flip.answer) ? flip.answer : 0`,
with `easy: false` always. -/
def prepareAnswers (flips : List Flip) : List PayloadAnswer :=
  flips.map fun flip =>
    match flip.answer with
    | some a => {answer := a, easy := false}
    | none => {answer := 0, easy := false}

/-- The reducer state: the durable validation fields plus the embedded
ceremony fields (`initialState` in the source). `error` is the extra field
written by FETCH_FLIPS_FAILED. -/
structure State where
  shortAnswers : List PayloadAnswer
  longAnswers : List PayloadAnswer
  epoch : Option Int
  shortAnswersSubmitted : Bool
  longAnswersSubmitted : Bool
  hashes : List HashEntry
  flips : List Flip
  loading : Bool
  currentIndex : Int
  canSubmit : Bool
  error : Option String

/-- `initialState` from the source (including the spread
`initialCeremonyState`: `hashes=[], flips=[], loading=true, currentIndex=0,
canSubmit=false`). -/
def initialState : State where
  shortAnswers := []
  longAnswers := []
  epoch := none
  shortAnswersSubmitted := false
  longAnswersSubmitted := false
  hashes := []
  flips := []
  loading := true
  currentIndex := 0
  canSubmit := false
  error := none

/-- A persisted snapshot as merged by `{...state, ...action.validation}` in
LOAD_VALIDATION: each present field overrides the state's field. -/
structure Snapshot where
  shortAnswers : Option (List PayloadAnswer) := none
  longAnswers : Option (List PayloadAnswer) := none
  epoch : Option (Option Int) := none
  shortAnswersSubmitted : Option Bool := none
  longAnswersSubmitted : Option Bool := none
  hashes : Option (List HashEntry) := none
  flips : Option (List Flip) := none
  loading : Option Bool := none
  currentIndex : Option Int := none
  canSubmit : Option Bool := none
  error : Option (Option String) := none

/-- Object spread `{...state, ...v}` for a snapshot `v`. -/
def applySnapshot (s : State) (v : Snapshot) : State where
  shortAnswers := v.shortAnswers.getD s.shortAnswers
  longAnswers := v.longAnswers.getD s.longAnswers
  epoch := v.epoch.getD s.epoch
  shortAnswersSubmitted := v.shortAnswersSubmitted.getD s.shortAnswersSubmitted
  longAnswersSubmitted := v.longAnswersSubmitted.getD s.longAnswersSubmitted
  hashes := v.hashes.getD s.hashes
  flips := v.flips.getD s.flips
  loading := v.loading.getD s.loading
  currentIndex := v.currentIndex.getD s.currentIndex
  canSubmit := v.canSubmit.getD s.canSubmit
  error := v.error.getD s.error

/-- The action kinds dispatched to `validationReducer`, with their payloads.
`other` stands for any action type string not among the defined constants,
hitting the reducer's `default` branch. -/
inductive Event where
  | loadValidation (v : Snapshot)
  | submitShortAnswers (answers : List PayloadAnswer) (epoch : Int)
  | submitLongAnswers (answers : List PayloadAnswer) (epoch : Int)
  | resetEpoch (epoch : Int)
  | startFetchFlips
  | fetchFlipsSucceeded (hashes : List HashEntry) (hexes : List HexEntry)
  | fetchMissingFlipsSucceeded (hexes : List HexEntry)
  | fetchFlipsFailed (err : String)
  | answer (option : Option Int)
  | next
  | prev
  | pick (index : Int)
  | reportAbuse
  | other (tag : String)

/-- The flips array built by the ANSWER and REPORT_ABUSE cases:
`[...slice(0, i), {...flips[i], answer: option}, ...slice(i + 1)]`.
When `flips[i]` is `undefined` (index out of range) the spread contributes
no fields and the new element carries only `answer`. -/
def answerFlips (flips : List Flip) (i : Int) (option : Option Int) : List Flip :=
  let updated : Flip :=
    match jsGet flips i with
    | some f => {f with answer := option}
    | none => {hash := none, ready := none, pics := none, orders := none, answer := option}
  jsSlice flips 0 i ++ [updated] ++ jsSlice flips (i + 1) flips.length

/-- `validationReducer(state, action)` from the source, case by case.
A thrown JS exception (the `default` branch, or a decode failure inside the
two fetch-success cases) is `Except.error`. -/
def validationReducer (state : State) (action : Event) : Except String State :=
  match action with
  | .loadValidation v => .ok (applySnapshot state v)
  | .submitShortAnswers answers epoch =>
    .ok {state with shortAnswers := answers, epoch := some epoch,
                    shortAnswersSubmitted := true,
                    hashes := [], flips := [], loading := true,
                    currentIndex := 0, canSubmit := false}
  | .submitLongAnswers answers epoch =>
    .ok {state with longAnswers := answers, epoch := some epoch,
                    longAnswersSubmitted := true,
                    hashes := [], flips := [], loading := true,
                    currentIndex := 0, canSubmit := false}
  | .resetEpoch epoch =>
    .ok {state with shortAnswers := [], longAnswers := [], epoch := some epoch,
                    shortAnswersSubmitted := false, longAnswersSubmitted := false,
                    hashes := [], flips := [], loading := true,
                    currentIndex := 0, canSubmit := false}
  | .startFetchFlips => .ok {state with loading := true}
  | .fetchFlipsSucceeded hashes hexes =>
    match decodeFlips hashes hexes with
    | .error e => .error e
    | .ok flips => .ok {state with flips := flips, loading := false}
  | .fetchMissingFlipsSucceeded hexes =>
    match decodeFlips state.hashes hexes with
    | .error e => .error e
    | .ok flips => .ok {state with flips := flips, loading := false}
  | .fetchFlipsFailed err => .ok {state with loading := true, error := some err}
  | .prev => .ok {state with currentIndex := max (state.currentIndex - 1) 0}
  | .next =>
    .ok {state with currentIndex := min (state.currentIndex + 1) ((state.flips.length : Int) - 1)}
  | .pick index => .ok {state with currentIndex := index}
  | .answer option =>
    let flips := answerFlips state.flips state.currentIndex option
    .ok {state with flips := flips,
                    canSubmit := (flips.map Flip.answer).all hasAnswer}
  | .reportAbuse =>
    let flips := answerFlips state.flips state.currentIndex (some AnswerType.Inappropriate)
    .ok {state with flips := flips,
                    currentIndex := min (state.currentIndex + 1) ((state.flips.length : Int) - 1),
                    canSubmit := (flips.map Flip.answer).all hasAnswer}
  | .other tag => .error ("Unhandled action type: " ++ tag)

/-- Modelled from the spec: the `EpochPeriod` enum of the epoch/phase
notifier (`epoch-context`, not under src); §4.3 names `ShortSession` and
`LongSession` and groups every other period as "other". -/
inductive EpochPeriod where
  | shortSession
  | longSession
  | otherPeriod
deriving DecidableEq, Repr

/-- `SessionType` from the source: {Short: 'short', Long: 'long'}. -/
inductive SessionType where
  | short
  | long
deriving DecidableEq, Repr

/-- The submission-trigger effect in `ValidationProvider`, as a pure decision
function: on a tick, which session's answers (if any) does it send?
Translated from the source: the guard is `seconds === 1`, then
`epoch.currentPeriod === EpochPeriod.ShortSession && shortAnswersSubmitted
&& hasSomeAnswer` picks the short session (note: the source tests the
submitted flag itself, not its negation), with the symmetric `else if` for
the long session; `hasSomeAnswer` is
`flips.map(x => x.answer).some(hasAnswer)`. -/
def submissionTrigger (seconds : Int) (currentPeriod : EpochPeriod) (state : State) :
    Option SessionType :=
  if seconds = 1 then
    let hasSomeAnswer := (state.flips.map Flip.answer).any hasAnswer
    if currentPeriod = .shortSession ∧ state.shortAnswersSubmitted = true ∧
        hasSomeAnswer = true then
      some SessionType.short
    else if currentPeriod = .longSession ∧ state.longAnswersSubmitted = true ∧
        hasSomeAnswer = true then
      some SessionType.long
    else none
  else none

/-! ## Helper lemmas -/

lemma jsSlice_zero_of_le (l : List α) (i : Int) (h : (l.length : Int) ≤ i) :
    jsSlice l 0 i = l := by
  have h0 : (0 : Int) ≤ i := le_trans (Int.natCast_nonneg _) h
  simp only [jsSlice]
  rw [if_neg (by omega), if_neg (by omega)]
  have e1 : (min (0 : Int) (l.length : Int)).toNat = 0 := by omega
  have e2 : (min i (l.length : Int)).toNat = l.length := by omega
  rw [e1, e2, List.take_length, List.drop_zero]

lemma jsSlice_from_of_le (l : List α) (i : Int) (h : (l.length : Int) ≤ i) :
    jsSlice l i l.length = [] := by
  have h0 : (0 : Int) ≤ i := le_trans (Int.natCast_nonneg _) h
  simp only [jsSlice]
  rw [if_neg (by omega), if_neg (by omega)]
  have e1 : (min i (l.length : Int)).toNat = l.length := by omega
  have e2 : (min (l.length : Int) (l.length : Int)).toNat = l.length := by omega
  rw [e1, e2, List.take_length, List.drop_length]

lemma jsGet_of_le (l : List α) (i : Int) (h : (l.length : Int) ≤ i) :
    jsGet l i = none := by
  have h0 : (0 : Int) ≤ i := le_trans (Int.natCast_nonneg _) h
  simp only [jsGet, if_pos h0]
  exact List.getElem?_eq_none (by omega)

lemma answerFlips_of_le (flips : List Flip) (i : Int) (o : Option Int)
    (h : (flips.length : Int) ≤ i) :
    answerFlips flips i o =
      flips ++ [{hash := none, ready := none, pics := none, orders := none, answer := o}] := by
  simp only [answerFlips, jsGet_of_le flips i h, jsSlice_zero_of_le flips i h,
    jsSlice_from_of_le flips (i + 1) (by omega)]
  simp

/-! ## Claims -/

/-- C1: the spec's submission rule requires `currentPeriod == ShortSession`,
**not** `shortAnswersSubmitted`, and some real answer; the source's trigger
instead tests `shortAnswersSubmitted` without negation. At a state in the
short session with one real answer and the flag still false, the tick with
1 second remaining submits nothing; flipping the flag to true makes it
submit. The spec (intent: submit each session's answers exactly once,
unsent answers exist) is right and the code is wrong. -/
theorem c1_trigger_tests_flag_without_negation :
    (let s : State := {initialState with
      flips := [{hash := none, ready := none, pics := none, orders := none,
                 answer := some AnswerType.Left}]}
    s.shortAnswersSubmitted = false ∧
    (s.flips.map Flip.answer).any hasAnswer = true ∧
    submissionTrigger 1 EpochPeriod.shortSession s = none ∧
    submissionTrigger 1 EpochPeriod.shortSession {s with shortAnswersSubmitted := true} =
      some SessionType.short ∧
    submissionTrigger 1 EpochPeriod.longSession {s with longAnswersSubmitted := true} =
      some SessionType.long ∧
    submissionTrigger 2 EpochPeriod.shortSession {s with shortAnswersSubmitted := true} = none) :=
  ⟨rfl, rfl, rfl, rfl, rfl, rfl⟩

/-- C2 counterexample: on the empty `flips` list with `currentIndex = 0`,
the Next event does not leave the index at 0: `min(0 + 1, 0 - 1) = -1`. -/
theorem c2_next_on_empty_counterexample :
    initialState.flips = [] ∧ initialState.currentIndex = 0 ∧
    (validationReducer initialState Event.next).map State.currentIndex = .ok (-1) ∧
    (-1 : Int) ≠ 0 :=
  ⟨rfl, rfl, rfl, by decide⟩

/-- C2 (amended): Prev yields `max(currentIndex - 1, 0)` and Next yields
`min(currentIndex + 1, len(flips) - 1)`; when `currentIndex` is already in
`[0, len(flips) - 1]` both results stay in that range, but on an empty
`flips` list with index 0, Prev leaves the index at 0 while Next sets it
to -1. -/
theorem c2_prev_next_clamp (s : State) :
    validationReducer s Event.prev =
      .ok {s with currentIndex := max (s.currentIndex - 1) 0} ∧
    validationReducer s Event.next =
      .ok {s with currentIndex := min (s.currentIndex + 1) ((s.flips.length : Int) - 1)} ∧
    (0 ≤ s.currentIndex → s.currentIndex ≤ (s.flips.length : Int) - 1 →
      (0 ≤ max (s.currentIndex - 1) 0 ∧
       max (s.currentIndex - 1) 0 ≤ (s.flips.length : Int) - 1) ∧
      (0 ≤ min (s.currentIndex + 1) ((s.flips.length : Int) - 1) ∧
       min (s.currentIndex + 1) ((s.flips.length : Int) - 1) ≤ (s.flips.length : Int) - 1)) ∧
    (s.flips = [] → s.currentIndex = 0 →
      validationReducer s Event.prev = .ok {s with currentIndex := 0} ∧
      validationReducer s Event.next = .ok {s with currentIndex := -1}) := by
  refine ⟨rfl, rfl, ?_, ?_⟩
  · intro h0 h1
    refine ⟨⟨?_, ?_⟩, ?_, ?_⟩ <;> omega
  · intro hf hc
    constructor
    · simp only [validationReducer, hc]
      rfl
    · simp only [validationReducer, hc, hf]
      rfl

/-- Witness for `c2_prev_next_clamp` at the initial state (empty flips,
index 0). -/
theorem c2_prev_next_clamp_witness :
    validationReducer initialState Event.prev = .ok {initialState with currentIndex := 0} ∧
    validationReducer initialState Event.next = .ok {initialState with currentIndex := -1} :=
  (c2_prev_next_clamp initialState).2.2.2 rfl rfl

/-- C5: `prepareAnswers` over `[{answer: Left}, {answer: None},
{answer: undefined}]` yields `[{answer: 1, easy: false}, {answer: 0,
easy: false}, {answer: 0, easy: false}]` (unanswered mapped to 0, not
omitted), and the SubmitShortAnswers step stores the payload, sets the
short flag, resets the ceremony fields to their initial values, and leaves
`longAnswers`/`longAnswersSubmitted` untouched. -/
theorem c5_submit_short_answers_step :
    prepareAnswers
        [{hash := none, ready := none, pics := none, orders := none,
          answer := some AnswerType.Left},
         {hash := none, ready := none, pics := none, orders := none,
          answer := some AnswerType.None},
         {hash := none, ready := none, pics := none, orders := none, answer := none}] =
      [{answer := 1, easy := false}, {answer := 0, easy := false},
       {answer := 0, easy := false}] ∧
    ∀ (s : State) (answers : List PayloadAnswer) (epoch : Int),
      validationReducer s (Event.submitShortAnswers answers epoch) =
        .ok {s with shortAnswers := answers, epoch := some epoch,
                    shortAnswersSubmitted := true, hashes := [], flips := [],
                    loading := true, currentIndex := 0, canSubmit := false} ∧
      (validationReducer s (Event.submitShortAnswers answers epoch)).map State.longAnswers =
        .ok s.longAnswers ∧
      (validationReducer s (Event.submitShortAnswers answers epoch)).map
          State.longAnswersSubmitted =
        .ok s.longAnswersSubmitted :=
  ⟨rfl, fun _ _ _ => ⟨rfl, rfl, rfl⟩⟩

/-- C7: ResetEpoch(e), under the caller contract that `e` differs from the
stored epoch, clears both answer lists and both submitted flags, sets the
epoch, and resets the per-ceremony fields. -/
theorem c7_reset_epoch (s : State) (e : Int) (h : some e ≠ s.epoch) :
    validationReducer s (Event.resetEpoch e) =
      .ok {s with shortAnswers := [], longAnswers := [], epoch := some e,
                  shortAnswersSubmitted := false, longAnswersSubmitted := false,
                  hashes := [], flips := [], loading := true, currentIndex := 0,
                  canSubmit := false} :=
  rfl

/-- Witness for `c7_reset_epoch`: ResetEpoch(5) on a state whose epoch is 4. -/
theorem c7_reset_epoch_witness :
    (some 5 ≠ ({initialState with epoch := some 4} : State).epoch) ∧
    validationReducer {initialState with epoch := some 4} (Event.resetEpoch 5) =
      .ok {initialState with epoch := some 5} :=
  ⟨by decide, c7_reset_epoch {initialState with epoch := some 4} 5 (by decide)⟩

/-- C8 counterexample: a Pick with index 5 on the initial state, whose
`flips` list is empty (so 5 is out of range), does not raise: the reducer
returns a defined state with `currentIndex = 5`. -/
theorem c8_pick_out_of_range_counterexample :
    initialState.flips.length = 0 ∧
    validationReducer initialState (Event.pick 5) =
      .ok {initialState with currentIndex := 5} :=
  ⟨rfl, rfl⟩

/-- C8 (amended): the reducer raises exactly on an event whose kind is not
one of the listed kinds (and, within the two fetch-success kinds, exactly
when the payload fails to decode); a Pick event never raises — any index,
in range or not, is stored as `currentIndex` — and every other listed kind
always produces a defined next state. -/
theorem c8_reducer_failure_modes (s : State) :
    (∀ t, (validationReducer s (Event.other t)).isOk = false) ∧
    (∀ i, validationReducer s (Event.pick i) = .ok {s with currentIndex := i}) ∧
    (∀ v, (validationReducer s (Event.loadValidation v)).isOk = true) ∧
    (∀ a e, (validationReducer s (Event.submitShortAnswers a e)).isOk = true) ∧
    (∀ a e, (validationReducer s (Event.submitLongAnswers a e)).isOk = true) ∧
    (∀ e, (validationReducer s (Event.resetEpoch e)).isOk = true) ∧
    (validationReducer s Event.startFetchFlips).isOk = true ∧
    (∀ e, (validationReducer s (Event.fetchFlipsFailed e)).isOk = true) ∧
    (validationReducer s Event.prev).isOk = true ∧
    (validationReducer s Event.next).isOk = true ∧
    (∀ o, (validationReducer s (Event.answer o)).isOk = true) ∧
    (validationReducer s Event.reportAbuse).isOk = true ∧
    (∀ hs cs, (validationReducer s (Event.fetchFlipsSucceeded hs cs)).isOk =
      (decodeFlips hs cs).isOk) ∧
    (∀ cs, (validationReducer s (Event.fetchMissingFlipsSucceeded cs)).isOk =
      (decodeFlips s.hashes cs).isOk) := by
  refine ⟨fun _ => rfl, fun _ => rfl, fun _ => rfl, fun _ _ => rfl, fun _ _ => rfl,
    fun _ => rfl, rfl, fun _ => rfl, rfl, rfl, fun _ => rfl, rfl, ?_, ?_⟩
  · intro hs cs
    simp only [validationReducer]
    cases decodeFlips hs cs <;> rfl
  · intro cs
    simp only [validationReducer]
    cases decodeFlips s.hashes cs <;> rfl

/-- C10: an Answer event with `currentIndex ≥ len(flips)` does not fail and
appends one element: the new flips list is the old one plus a flip carrying
only the `answer` field. In particular on empty `flips` with index 0 the
result is the one-element list `[{answer: option}]` and `canSubmit` equals
`hasAnswer(option)`. -/
theorem c10_answer_out_of_range_appends (s : State) (o : Option Int)
    (h : (s.flips.length : Int) ≤ s.currentIndex) :
    ∃ s', validationReducer s (Event.answer o) = .ok s' ∧
      s'.flips = s.flips ++
        [{hash := none, ready := none, pics := none, orders := none, answer := o}] ∧
      s'.flips.length = s.flips.length + 1 ∧
      (s.flips = [] →
        s'.flips = [{hash := none, ready := none, pics := none, orders := none, answer := o}] ∧
        s'.canSubmit = hasAnswer o) := by
  refine ⟨_, rfl, ?_, ?_, ?_⟩
  · simpa using answerFlips_of_le s.flips s.currentIndex o h
  · rw [show (answerFlips s.flips s.currentIndex o) =
        s.flips ++ [{hash := none, ready := none, pics := none, orders := none, answer := o}]
      from answerFlips_of_le s.flips s.currentIndex o h]
    simp
  · intro hf
    constructor
    · rw [show (answerFlips s.flips s.currentIndex o) =
          s.flips ++ [{hash := none, ready := none, pics := none, orders := none, answer := o}]
        from answerFlips_of_le s.flips s.currentIndex o h, hf]
      rfl
    · rw [show (answerFlips s.flips s.currentIndex o) =
          s.flips ++ [{hash := none, ready := none, pics := none, orders := none, answer := o}]
        from answerFlips_of_le s.flips s.currentIndex o h, hf]
      cases o <;> rfl

/-- Witness for `c10_answer_out_of_range_appends` at the initial state with
answer Left. -/
theorem c10_answer_out_of_range_appends_witness :
    ((initialState.flips.length : Int) ≤ initialState.currentIndex) ∧
    ∃ s', validationReducer initialState (Event.answer (some 1)) = .ok s' ∧
      s'.flips = initialState.flips ++
        [{hash := none, ready := none, pics := none, orders := none, answer := some 1}] ∧
      s'.flips.length = initialState.flips.length + 1 ∧
      (initialState.flips = [] →
        s'.flips =
          [{hash := none, ready := none, pics := none, orders := none, answer := some 1}] ∧
        s'.canSubmit = hasAnswer (some 1)) :=
  ⟨by decide, c10_answer_out_of_range_appends initialState (some 1) (by decide)⟩

/-! ## Decoder lemmas -/

@[simp] lemma isOk_ok (a : α) : (Except.ok a : Except ε α).isOk = true := rfl

@[simp] lemma isOk_error (e : ε) : (Except.error e : Except ε α).isOk = false := rfl

lemma decodeFlipPair_ok_shape (d : Rlp) (f0 : Rlp) (ords : List (List OrderVal))
    (h : decodeFlipPair d = .ok (f0, ords)) :
    ∃ f1 rest, d = .list (f0 :: f1 :: rest) ∧
      ((f1 = .bytes [] ∧ ords = []) ∨
       ∃ os, f1 = .list os ∧ ords = os.map decodeOrder) := by
  match d with
  | .bytes bs => simp [decodeFlipPair] at h
  | .list [] => simp [decodeFlipPair] at h
  | .list [_] => simp [decodeFlipPair] at h
  | .list (a :: .bytes [] :: rest) =>
    simp only [decodeFlipPair] at h
    injection h with h
    rw [Prod.ext_iff] at h
    obtain ⟨h1, h2⟩ := h
    subst h1
    exact ⟨.bytes [], rest, rfl, Or.inl ⟨rfl, h2.symm⟩⟩
  | .list (a :: .bytes (b :: bs) :: rest) => simp [decodeFlipPair] at h
  | .list (a :: .list os :: rest) =>
    simp only [decodeFlipPair] at h
    injection h with h
    rw [Prod.ext_iff] at h
    obtain ⟨h1, h2⟩ := h
    subst h1
    exact ⟨.list os, rest, rfl, Or.inr ⟨os, rfl, h2.symm⟩⟩

lemma decodeFlip_ok_cases (he : HashEntry) (hexes : List HexEntry) (f : Flip)
    (h : decodeFlip he hexes = .ok f) :
    f.hash = some he.hash ∧ f.ready = some he.ready ∧ f.answer = none ∧
    (match hexes.find? (fun x => x.hash == he.hash) with
     | none => f.pics = none ∧ f.orders = none
     | some hx => ∃ bytes f0 f1 rest,
         fromHexString (jsSubstring hx.hex 2) = .ok bytes ∧
         rlpDecode bytes = .ok (.list (f0 :: f1 :: rest)) ∧
         f.pics = some f0 ∧
         ((f1 = .bytes [] ∧ f.orders = some []) ∨
          ∃ os, f1 = .list os ∧ f.orders = some (os.map decodeOrder))) := by
  unfold decodeFlip at h
  split at h
  · rename_i hfind
    injection h with h
    subst h
    exact ⟨rfl, rfl, rfl, rfl, rfl⟩
  · rename_i hx hfind
    split at h
    · exact Except.noConfusion h
    · rename_i bytes hhex
      split at h
      · exact Except.noConfusion h
      · rename_i d hd
        split at h
        · exact Except.noConfusion h
        · rename_i pics orders hp
          injection h with h
          subst h
          obtain ⟨f1, rest, hd2, hor⟩ := decodeFlipPair_ok_shape d pics orders hp
          subst hd2
          refine ⟨rfl, rfl, rfl, ?_⟩
          refine ⟨bytes, pics, f1, rest, hhex, hd, rfl, ?_⟩
          cases hor with
          | inl hcase => exact Or.inl ⟨hcase.1, by rw [hcase.2]⟩
          | inr hcase =>
            obtain ⟨os, h1, h2⟩ := hcase
            exact Or.inr ⟨os, h1, by rw [h2]⟩

lemma decodeFlips_length_get (hashes : List HashEntry) (hexes : List HexEntry)
    (fs : List Flip) (h : decodeFlips hashes hexes = .ok fs) :
    fs.length = hashes.length ∧
    ∀ i, (hi : i < hashes.length) → (hf : i < fs.length) →
      decodeFlip (hashes.get ⟨i, hi⟩) hexes = .ok (fs.get ⟨i, hf⟩) := by
  induction hashes generalizing fs with
  | nil =>
    simp only [decodeFlips] at h
    injection h with h
    subst h
    exact ⟨rfl, fun i hi _ => absurd hi (Nat.not_lt_zero i)⟩
  | cons he rest ih =>
    simp only [decodeFlips] at h
    cases h1 : decodeFlip he hexes with
    | error e => rw [h1] at h; simp at h
    | ok f =>
      rw [h1] at h
      cases h2 : decodeFlips rest hexes with
      | error e => rw [h2] at h; simp at h
      | ok fs2 =>
        rw [h2] at h
        injection h with h
        subst h
        obtain ⟨hlen, hget⟩ := ih fs2 h2
        refine ⟨by simp [hlen], ?_⟩
        intro i hi hf
        match i with
        | 0 => exact h1
        | Nat.succ n =>
          exact hget n (Nat.lt_of_succ_lt_succ hi) (Nat.lt_of_succ_lt_succ hf)

/-- C3 counterexample: the hash list requests "a" and "b", the content list
has both, and "a"'s record is malformed (a long-string header declaring 5
payload bytes with only 1 present). Flip "b" decodes fine in isolation, yet
`decodeFlips` on the batch throws: the other flips do not complete and no
unready placeholder is produced for "a". -/
theorem c3_malformed_record_aborts_batch_counterexample :
    (decodeFlip ⟨"b", true⟩ [⟨"a", "0xb80501"⟩, ⟨"b", "0xc7c281abc3c20180"⟩]).isOk = true ∧
    (decodeFlip ⟨"a", true⟩ [⟨"a", "0xb80501"⟩, ⟨"b", "0xc7c281abc3c20180"⟩]).isOk = false ∧
    (decodeFlips [⟨"a", true⟩, ⟨"b", true⟩]
      [⟨"a", "0xb80501"⟩, ⟨"b", "0xc7c281abc3c20180"⟩]).isOk = false :=
  ⟨rfl, rfl, rfl⟩

/-- C3 (amended): a malformed (undecodable) record is fatal for the whole
batch, not just the affected flip: if any requested hash's per-flip decode
throws, `decodeFlips` throws, producing no flip list at all — the other
flips do not complete, and no defaults are substituted. -/
theorem c3_malformed_record_aborts_batch (hashes : List HashEntry)
    (hexes : List HexEntry) (he : HashEntry) (hmem : he ∈ hashes)
    (hbad : (decodeFlip he hexes).isOk = false) :
    (decodeFlips hashes hexes).isOk = false := by
  induction hashes with
  | nil => cases hmem
  | cons hd rest ih =>
    rcases List.mem_cons.mp hmem with heq | hmem2
    · subst heq
      simp only [decodeFlips]
      cases hdec : decodeFlip he hexes with
      | error e => rfl
      | ok f => rw [hdec] at hbad; simp at hbad
    · simp only [decodeFlips]
      cases hdec : decodeFlip hd hexes with
      | error e => rfl
      | ok f =>
        cases hdec2 : decodeFlips rest hexes with
        | error e => rfl
        | ok fs =>
          have hfalse := ih hmem2
          rw [hdec2] at hfalse
          simp at hfalse

/-- Witness for `c3_malformed_record_aborts_batch` at the concrete
two-flip batch whose "a" record is malformed. -/
theorem c3_malformed_record_aborts_batch_witness :
    (⟨"a", true⟩ : HashEntry) ∈ ([⟨"a", true⟩, ⟨"b", true⟩] : List HashEntry) ∧
    (decodeFlip ⟨"a", true⟩ [⟨"a", "0xb80501"⟩, ⟨"b", "0xc7c281abc3c20180"⟩]).isOk = false ∧
    (decodeFlips [⟨"a", true⟩, ⟨"b", true⟩]
      [⟨"a", "0xb80501"⟩, ⟨"b", "0xc7c281abc3c20180"⟩]).isOk = false :=
  ⟨by decide, rfl,
    c3_malformed_record_aborts_batch [⟨"a", true⟩, ⟨"b", true⟩]
      [⟨"a", "0xb80501"⟩, ⟨"b", "0xc7c281abc3c20180"⟩] ⟨"a", true⟩ (by decide) rfl⟩

/-- C4: `decodeFlips` returns one flip per hash-list entry, in hash-list
order. When the first content entry with the same hash exists, the flip has
`pics` equal to field 0 of the RLP-decoded record and `orders` equal to
field 1 with each order element mapped through `x[0] || 0` (for a byte
field: its first byte, absent/empty giving 0), `ready` preserved and
`answer` null; with no match it is the placeholder with `pics`/`orders`
null, `ready` preserved, `answer` null. -/
theorem c4_decode_flips_per_hash (hashes : List HashEntry) (hexes : List HexEntry)
    (fs : List Flip) (h : decodeFlips hashes hexes = .ok fs) :
    fs.length = hashes.length ∧
    ∀ i, (hi : i < hashes.length) → (hf : i < fs.length) →
      (fs.get ⟨i, hf⟩).hash = some (hashes.get ⟨i, hi⟩).hash ∧
      (fs.get ⟨i, hf⟩).ready = some (hashes.get ⟨i, hi⟩).ready ∧
      (fs.get ⟨i, hf⟩).answer = none ∧
      (match hexes.find? (fun x => x.hash == (hashes.get ⟨i, hi⟩).hash) with
       | none => (fs.get ⟨i, hf⟩).pics = none ∧ (fs.get ⟨i, hf⟩).orders = none
       | some hx => ∃ bytes f0 f1 rest,
           fromHexString (jsSubstring hx.hex 2) = .ok bytes ∧
           rlpDecode bytes = .ok (.list (f0 :: f1 :: rest)) ∧
           (fs.get ⟨i, hf⟩).pics = some f0 ∧
           ((f1 = .bytes [] ∧ (fs.get ⟨i, hf⟩).orders = some []) ∨
            ∃ os, f1 = .list os ∧
              (fs.get ⟨i, hf⟩).orders = some (os.map decodeOrder))) := by
  obtain ⟨hlen, hget⟩ := decodeFlips_length_get hashes hexes fs h
  exact ⟨hlen, fun i hi hf => decodeFlip_ok_cases _ hexes _ (hget i hi hf)⟩

/-- Witness for `c4_decode_flips_per_hash`: a two-hash request where "a" has
content (a record with one pic `0xab` and one order list `[1, 0]`, the 0
coming from an empty byte field) and "b" has none. -/
theorem c4_decode_flips_per_hash_witness :
    decodeFlips [⟨"a", true⟩, ⟨"b", false⟩] [⟨"a", "0xc7c281abc3c20180"⟩] =
      .ok [{hash := some "a", ready := some true, pics := some (.list [.bytes [0xab]]),
            orders := some [[.num 1, .num 0]], answer := none},
           {hash := some "b", ready := some false, pics := none, orders := none,
            answer := none}] ∧
    ([{hash := some "a", ready := some true, pics := some (.list [.bytes [0xab]]),
       orders := some [[OrderVal.num 1, OrderVal.num 0]], answer := none},
      {hash := some "b", ready := some false, pics := none, orders := none,
       answer := none}] : List Flip).length =
      ([⟨"a", true⟩, ⟨"b", false⟩] : List HashEntry).length :=
  ⟨rfl,
    (c4_decode_flips_per_hash [⟨"a", true⟩, ⟨"b", false⟩] [⟨"a", "0xc7c281abc3c20180"⟩]
      [{hash := some "a", ready := some true, pics := some (.list [.bytes [0xab]]),
        orders := some [[.num 1, .num 0]], answer := none},
       {hash := some "b", ready := some false, pics := none, orders := none,
        answer := none}] rfl).1⟩

/-- C6: after an Answer event on a non-empty flips list, `canSubmit` is true
iff every flip of the resulting list has a defined (finite) answer — so it
becomes true exactly when the last unanswered flip receives an answer — and
any ResetEpoch or Submit step from the resulting state clears `flips` and
sets `canSubmit` back to false. -/
theorem c6_answer_can_submit_iff (s : State) (o : Option Int) (s1 : State)
    (hne : s.flips ≠ [])
    (h : validationReducer s (Event.answer o) = .ok s1) :
    (s1.canSubmit = true ↔ ∀ f ∈ s1.flips, hasAnswer f.answer = true) ∧
    (∀ e s2, validationReducer s1 (Event.resetEpoch e) = .ok s2 →
      s2.canSubmit = false ∧ s2.flips = []) ∧
    (∀ a e s2, validationReducer s1 (Event.submitShortAnswers a e) = .ok s2 →
      s2.canSubmit = false ∧ s2.flips = []) ∧
    (∀ a e s2, validationReducer s1 (Event.submitLongAnswers a e) = .ok s2 →
      s2.canSubmit = false ∧ s2.flips = []) := by
  simp only [validationReducer] at h
  injection h with h
  subst h
  refine ⟨?_, ?_, ?_, ?_⟩
  · simp [List.all_eq_true]
  · intro e s2 h2
    simp only [validationReducer] at h2
    injection h2 with h2
    subst h2
    exact ⟨rfl, rfl⟩
  · intro a e s2 h2
    simp only [validationReducer] at h2
    injection h2 with h2
    subst h2
    exact ⟨rfl, rfl⟩
  · intro a e s2 h2
    simp only [validationReducer] at h2
    injection h2 with h2
    subst h2
    exact ⟨rfl, rfl⟩

/-- Witness for `c6_answer_can_submit_iff`: answering the single flip of a
one-flip session with Right makes `canSubmit` true. -/
theorem c6_answer_can_submit_iff_witness :
    (({initialState with
        flips := [{hash := none, ready := none, pics := none, orders := none,
                   answer := none}]} : State).flips ≠ []) ∧
    validationReducer
        {initialState with
          flips := [{hash := none, ready := none, pics := none, orders := none,
                     answer := none}]}
        (Event.answer (some 2)) =
      .ok {initialState with
            flips := [{hash := none, ready := none, pics := none, orders := none,
                       answer := some 2}],
            canSubmit := true} ∧
    (({initialState with
        flips := [{hash := none, ready := none, pics := none, orders := none,
                   answer := some 2}],
        canSubmit := true} : State).canSubmit = true ↔
      ∀ f ∈ ({initialState with
        flips := [{hash := none, ready := none, pics := none, orders := none,
                   answer := some 2}],
        canSubmit := true} : State).flips, hasAnswer f.answer = true) :=
  ⟨List.cons_ne_nil _ _, rfl,
    (c6_answer_can_submit_iff
      {initialState with
        flips := [{hash := none, ready := none, pics := none, orders := none,
                   answer := none}]}
      (some 2) _ (List.cons_ne_nil _ _) rfl).1⟩

/-- C9: FetchFlipsSucceeded(hashes, contents) changes only `flips` (to the
decode of the event's own hashes against its contents) and `loading`; it
leaves the stored `hashes` field unchanged, so a following
FetchMissingFlipsSucceeded(contents) decodes against the hashes the state
held before the first fetch. -/
theorem c9_fetch_succeeded_frame (s : State) (hs : List HashEntry)
    (cs cs2 : List HexEntry) (s1 s2 : State)
    (h1 : validationReducer s (Event.fetchFlipsSucceeded hs cs) = .ok s1)
    (h2 : validationReducer s1 (Event.fetchMissingFlipsSucceeded cs2) = .ok s2) :
    (∃ fs, decodeFlips hs cs = .ok fs ∧ s1 = {s with flips := fs, loading := false}) ∧
    s1.hashes = s.hashes ∧
    (∃ fs2, decodeFlips s.hashes cs2 = .ok fs2 ∧
      s2 = {s1 with flips := fs2, loading := false}) := by
  simp only [validationReducer] at h1 h2
  cases hd1 : decodeFlips hs cs with
  | error e => rw [hd1] at h1; simp at h1
  | ok fs =>
    rw [hd1] at h1
    injection h1 with h1
    subst h1
    have hh : ({s with flips := fs, loading := false} : State).hashes = s.hashes := rfl
    rw [hh] at h2
    cases hd2 : decodeFlips s.hashes cs2 with
    | error e => rw [hd2] at h2; simp at h2
    | ok fs2 =>
      rw [hd2] at h2
      injection h2 with h2
      subst h2
      exact ⟨⟨fs, rfl, rfl⟩, rfl, ⟨fs2, rfl, rfl⟩⟩

/-- Witness for `c9_fetch_succeeded_frame` with empty hash and content
lists. -/
theorem c9_fetch_succeeded_frame_witness :
    validationReducer initialState (Event.fetchFlipsSucceeded [] []) =
      .ok {initialState with flips := [], loading := false} ∧
    validationReducer {initialState with flips := [], loading := false}
        (Event.fetchMissingFlipsSucceeded []) =
      .ok {initialState with flips := [], loading := false} ∧
    ({initialState with flips := [], loading := false} : State).hashes =
      initialState.hashes :=
  ⟨rfl, rfl,
    (c9_fetch_succeeded_frame initialState [] [] []
      {initialState with flips := [], loading := false}
      {initialState with flips := [], loading := false} rfl rfl).2.1⟩

end IdenaValidation
